import Mathlib

/-!
Verification of the Amazon search scraper (`amazon_scraper.py`).

The development shallowly embeds the parsing, deduplication, export and
resource-handling logic of the source file.  BeautifulSoup's tree walk is
abstracted: the HTML document is modelled as the list of candidate DOM
elements in document order, each carrying exactly the attributes and
sub-elements that the source's CSS selectors inspect.
-/

namespace AmazonScraper

/-- An anchor element matched inside a result card (`h2 a...`): its text
content as returned by `get_text(strip=True)` is `pyStrip text`, and `href`
is its `href` attribute (`none` when the attribute is absent). -/
structure Anchor where
  text : String
  href : Option String
deriving DecidableEq

/-- An `img.s-image` element; `src` is its `src` attribute, `none` when the
attribute is absent (BeautifulSoup's `img.get("src")` then returns `None`). -/
structure Img where
  src : Option String
deriving DecidableEq

/-- One candidate DOM element of the rendered page, carrying the attributes
and sub-elements the source's selectors look at:
`tag` is the element's tag name; `dataAsin` the `data-asin` attribute;
`componentType` the `data-component-type` attribute;
`primaryAnchor` the result of `select_one("h2 a.a-link-normal.a-text-normal")`;
`anyAnchor` the result of `select_one("h2 a")`;
`sImage` the result of `select_one("img.s-image")`;
`priceWhole` / `priceFrac` the text of `select_one(".a-price .a-price-whole")`
and `select_one(".a-price .a-price-fraction")`;
`offscreen` the text of `select_one("span.a-offscreen")`;
`ratingAlt` the text of `select_one(".a-icon-alt")`;
`sizeBase` the text of `select_one("span.a-size-base")`.
Text fields hold the raw node text; the parser applies `pyStrip`
mirroring `get_text(strip=True)` / `.strip()`. -/
structure Element where
  tag : String
  dataAsin : Option String
  componentType : Option String
  primaryAnchor : Option Anchor
  anyAnchor : Option Anchor
  sImage : Option Img
  priceWhole : Option String
  priceFrac : Option String
  offscreen : Option String
  ratingAlt : Option String
  sizeBase : Option String
deriving DecidableEq

/-- One product record, the dict built at lines 81-89 of the source.  All
fields are strings except `image`: the Python expression
`img.get("src") if img else ""` evaluates to `None` when the `img` element
exists but carries no `src` attribute, hence `Option String`. -/
structure Product where
  asin : String
  title : String
  link : String
  image : Option String
  price : String
  rating : String
  reviews : String
deriving DecidableEq

/-- Whitespace stripping on both ends of a character list. -/
def stripChars (l : List Char) : List Char :=
  ((l.dropWhile Char.isWhitespace).reverse.dropWhile Char.isWhitespace).reverse

/-- Python's `str.strip()` and BeautifulSoup's `get_text(strip=True)` on a
single text node: whitespace removed from both ends. -/
def pyStrip (s : String) : String :=
  ⟨stripChars s.data⟩

/-- The characters of a URL up to (excluding) the first `/`. -/
def upToSlash : List Char → List Char
  | [] => []
  | c :: rest => if c == '/' then [] else c :: upToSlash rest

/-- The characters of the scheme-plus-netloc part of an absolute URL:
everything up to the first `/` after the `://` separator. -/
def schemeNetlocChars : List Char → List Char
  | [] => []
  | ':' :: '/' :: '/' :: rest => ':' :: '/' :: '/' :: upToSlash rest
  | c :: rest => c :: schemeNetlocChars rest

/-- The scheme-plus-netloc part of an absolute base URL, e.g.
`"https://www.amazon.in"` for itself. -/
def schemeNetloc (base : String) : String :=
  ⟨schemeNetlocChars base.data⟩

/-- Whether a URL is root-relative, i.e. starts with `/`. -/
def rootRelative (url : String) : Bool :=
  match url.data with
  | [] => false
  | c :: _ => c == '/'

/-- Modelled from the spec: `urllib.parse.urljoin` (Python standard library,
not part of this repository's sources).  The spec specifies resolution of a
relative href against the base domain, with root-relative hrefs such as
`"/dp/B000123"` resolving to scheme-netloc of the base followed by the href;
an href that does not start with `"/"` (including an already absolute URL)
is returned unchanged by this model. -/
def urljoin (base url : String) : String :=
  if rootRelative url then schemeNetloc base ++ url else url

/-- The CSS selection `div[data-asin][data-component-type="s-search-result"]`
(line 56): a `div` that has a `data-asin` attribute (of any value) and whose
`data-component-type` attribute equals `"s-search-result"`. -/
def isSelected (e : Element) : Bool :=
  e.tag == "div" && e.dataAsin.isSome && e.componentType == some "s-search-result"

/-- `r.get("data-asin", "").strip()` (line 58). -/
def cardAsin (e : Element) : String :=
  pyStrip (e.dataAsin.getD "")

/-- An element that both matches the result-card selector and carries a
non-empty (after stripping) `data-asin`: exactly the elements for which the
loop body emits a record. -/
def qualifies (e : Element) : Bool :=
  isSelected e && cardAsin e != ""

/-- `r.select_one("h2 a.a-link-normal.a-text-normal") or r.select_one("h2 a")`
(line 62): the primary anchor if present, the fallback otherwise. -/
def titleTag (e : Element) : Option Anchor :=
  e.primaryAnchor <|> e.anyAnchor

/-- The record built for one selected card with a non-empty asin
(lines 62-89 of the source). -/
def parseCard (base : String) (e : Element) : Product :=
  { asin := cardAsin e
    title :=
      match titleTag e with
      | some a => pyStrip a.text
      | none => ""
    link :=
      match titleTag e with
      | some a =>
        match a.href with
        | some h => if h = "" then "" else urljoin base h
        | none => ""
      | none => ""
    image :=
      match e.sImage with
      | some i => i.src
      | none => some ""
    price :=
      match e.priceWhole with
      | some w =>
        pyStrip w ++ (match e.priceFrac with
                   | some f => "." ++ pyStrip f
                   | none => "")
      | none =>
        match e.offscreen with
        | some s => pyStrip s
        | none => ""
    rating :=
      match e.ratingAlt with
      | some s => pyStrip s
      | none => ""
    reviews :=
      match e.sizeBase with
      | some s => pyStrip s
      | none => "" }

/-- `parse_search_results(html, base_domain)` (lines 53-90): select the
result cards, then for each card skip it when its stripped asin is empty
and otherwise append its record. -/
def parse_search_results (elems : List Element) (base : String) : List Product :=
  (elems.filter isSelected).filterMap
    (fun e => if cardAsin e = "" then none else some (parseCard base e))

/-- The deduplication loop of `scrape_amazon` (lines 117-123): keep a record
iff its asin is non-empty and not seen before, threading the `seen` set. -/
def dedupAux (seen : List String) : List Product → List Product
  | [] => []
  | p :: rest =>
    if p.asin ≠ "" ∧ p.asin ∉ seen then
      p :: dedupAux (p.asin :: seen) rest
    else
      dedupAux seen rest

/-- Deduplication starting from an empty `seen` set. -/
def dedup (ps : List Product) : List Product :=
  dedupAux [] ps

/-- An event in the lifecycle of the browser session resource. -/
inductive Ev where
  | acquire
  | render (page : Nat)
  | release
deriving DecidableEq

/-- The page loop inside the `try` block of `scrape_amazon` (lines 99-113):
`render` models `driver.get` + scrolling + `driver.page_source` for a given
page number and may raise (`Except.error`).  Returns the trace of render
events together with either the accumulated records or the raised error. -/
def renderLoop {ε : Type} (render : Nat → Except ε (List Element)) (base : String) :
    Nat → Nat → List Product → List Ev × Except ε (List Product)
  | 0, _, acc => ([], Except.ok acc)
  | n + 1, page, acc =>
    match render page with
    | Except.error err => ([Ev.render page], Except.error err)
    | Except.ok html =>
      let step := renderLoop render base n (page + 1) (acc ++ parse_search_results html base)
      (Ev.render page :: step.1, step.2)

/-- `scrape_amazon` (lines 95-123): acquire the driver, run the page loop
inside `try`, release the driver in `finally` (so the release event is
appended whether or not the loop raised), re-raise a raised error, and
deduplicate on success. -/
def scrape_amazon {ε : Type} (render : Nat → Except ε (List Element)) (base : String)
    (pages : Nat) : List Ev × Except ε (List Product) :=
  let body := renderLoop render base pages 1 []
  (Ev.acquire :: body.1 ++ [Ev.release],
   match body.2 with
   | Except.error err => Except.error err
   | Except.ok all => Except.ok (dedup all))

/-- The fixed seven-column header produced by `pd.DataFrame` on these records:
columns are the dict keys in insertion order. -/
def csvHeader : String := "asin,title,link,image,price,rating,reviews"

/-- Whether a CSV field must be quoted under pandas' minimal quoting: it
contains a comma, a quote, a newline or a carriage return. -/
def needsQuoting (l : List Char) : Bool :=
  l.any (fun c => c == ',' || c == '\"' || c == '\n' || c == '\r')

/-- Double every quote character of a field being quoted. -/
def escapeQuotes : List Char → List Char
  | [] => []
  | c :: rest =>
    if c == '\"' then c :: c :: escapeQuotes rest else c :: escapeQuotes rest

/-- Modelled from the spec: pandas CSV minimal quoting (the `to_csv` call is
to the external pandas library).  A field containing a comma, quote, newline
or carriage return is wrapped in quotes with inner quotes doubled. -/
def csvField (s : String) : String :=
  if needsQuoting s.data then ⟨'\"' :: (escapeQuotes s.data ++ ['\"'])⟩ else s

/-- A possibly-missing cell: pandas serializes a missing value (`None`) as
the empty field. -/
def csvCell (v : Option String) : String :=
  match v with
  | some s => csvField s
  | none => ""

/-- Comma-join of a list of serialized fields. -/
def joinComma : List String → String
  | [] => ""
  | [s] => s
  | s :: rest => s ++ "," ++ joinComma rest

/-- One data row of the export, fields in the fixed column order. -/
def csvRow (p : Product) : String :=
  joinComma
    [csvField p.asin, csvField p.title, csvField p.link, csvCell p.image,
     csvField p.price, csvField p.rating, csvField p.reviews]

/-- Modelled from the spec: `save_to_csv` (lines 128-131) builds
`pd.DataFrame(items)` and writes it with `to_csv(filename, index=False)`
(pandas is external to the repository).  The columns of the frame are the
keys of the record dicts, so a non-empty list yields the seven-column header
followed by one row per record, while the empty list yields a frame with no
columns whose serialization is a single empty header line.  The file is
modelled as its list of CSV record lines. -/
def save_to_csv (items : List Product) : List String :=
  match items with
  | [] => [""]
  | _ => csvHeader :: items.map csvRow

/-- Writing the serialized CSV to a path in a file system modelled as a map
from paths to file contents: the destination is overwritten, every other
path is untouched. -/
def writeCsvFile (fs : String → Option (List String)) (path : String)
    (items : List Product) : String → Option (List String) :=
  fun q => if q = path then some (save_to_csv items) else fs q

/-- The parser is the map of `parseCard` over the qualifying cards: selecting
and then skipping empty-asin cards is filtering by `qualifies`. -/
lemma parse_eq_map (elems : List Element) (base : String) :
    parse_search_results elems base = (elems.filter qualifies).map (parseCard base) := by
  induction elems with
  | nil => rfl
  | cons e rest ih =>
    unfold parse_search_results at ih ⊢
    cases hs : isSelected e with
    | false =>
      simp only [List.filter_cons, hs, Bool.false_eq_true, if_false, qualifies,
        Bool.false_and, ih]
    | true =>
      by_cases ha : cardAsin e = ""
      · simp only [List.filter_cons, hs, if_true, List.filterMap_cons, ha, if_pos rfl,
          qualifies, bne, ha, Bool.true_and, beq_self_eq_true, Bool.not_true,
          Bool.false_eq_true, if_false, ih]
      · have hb : (cardAsin e != "") = true := by
          simp [bne, ha]
        simp only [List.filter_cons, hs, if_true, List.filterMap_cons, if_neg ha,
          qualifies, hb, Bool.true_and, List.map_cons, ih]

/-- Membership in the parser output: exactly the records of qualifying cards. -/
lemma mem_parse {elems : List Element} {base : String} {p : Product} :
    p ∈ parse_search_results elems base ↔
      ∃ e, e ∈ elems ∧ qualifies e = true ∧ p = parseCard base e := by
  rw [parse_eq_map]
  simp only [List.mem_map, List.mem_filter]
  constructor
  · rintro ⟨e, ⟨he, hq⟩, hp⟩
    exact ⟨e, he, hq, hp.symm⟩
  · rintro ⟨e, he, hq, hp⟩
    exact ⟨e, ⟨he, hq⟩, hp.symm⟩

/-- Filtering by a stronger predicate yields a list no longer than filtering
by a weaker one. -/
lemma length_filter_mono {α : Type} (l : List α) (p q : α → Bool)
    (h : ∀ a, p a = true → q a = true) :
    (l.filter p).length ≤ (l.filter q).length := by
  induction l with
  | nil => simp
  | cons a t ih =>
    rw [List.filter_cons, List.filter_cons]
    by_cases hp : p a = true
    · rw [if_pos hp, if_pos (h a hp)]
      exact Nat.succ_le_succ ih
    · rw [if_neg hp]
      cases hq : q a with
      | false => rw [if_neg (by simp [hq])]; exact ih
      | true => rw [if_pos (by simp [hq])]; exact Nat.le_succ_of_le ih

/-- The dedup loop output is a sublist of its input (records are kept in
their original relative order). -/
lemma dedupAux_sublist (seen : List String) (ps : List Product) :
    List.Sublist (dedupAux seen ps) ps := by
  induction ps generalizing seen with
  | nil => simp [dedupAux]
  | cons p rest ih =>
    unfold dedupAux
    by_cases h : p.asin ≠ "" ∧ p.asin ∉ seen
    · rw [if_pos h]
      exact (ih _).cons₂ p
    · rw [if_neg h]
      exact (ih seen).cons p

/-- Every record kept by the dedup loop has a non-empty asin not in the
initial seen set. -/
lemma mem_dedupAux {seen : List String} {ps : List Product} {p : Product}
    (hp : p ∈ dedupAux seen ps) : p.asin ≠ "" ∧ p.asin ∉ seen := by
  induction ps generalizing seen with
  | nil => simp [dedupAux] at hp
  | cons q rest ih =>
    unfold dedupAux at hp
    by_cases h : q.asin ≠ "" ∧ q.asin ∉ seen
    · rw [if_pos h] at hp
      rcases List.mem_cons.mp hp with rfl | hmem
      · exact h
      · have hrec := ih hmem
        exact ⟨hrec.1, fun hmem2 => hrec.2 (List.mem_cons_of_mem _ hmem2)⟩
    · rw [if_neg h] at hp
      exact ih hp

/-- The asins of the dedup loop output are pairwise distinct. -/
lemma dedupAux_pairwise (seen : List String) (ps : List Product) :
    (dedupAux seen ps).Pairwise (fun a b => a.asin ≠ b.asin) := by
  induction ps generalizing seen with
  | nil => simp [dedupAux]
  | cons q rest ih =>
    unfold dedupAux
    by_cases h : q.asin ≠ "" ∧ q.asin ∉ seen
    · rw [if_pos h]
      refine List.Pairwise.cons ?_ (ih _)
      intro b hb heq
      apply (mem_dedupAux hb).2
      rw [← heq]
      exact List.mem_cons_self _ _
    · rw [if_neg h]
      exact ih seen

/-- A list whose records already have non-empty, unseen, pairwise-distinct
asins passes through the dedup loop unchanged. -/
lemma dedupAux_fixed {seen : List String} {ps : List Product}
    (h1 : ∀ p ∈ ps, p.asin ≠ "" ∧ p.asin ∉ seen)
    (h2 : ps.Pairwise (fun a b => a.asin ≠ b.asin)) :
    dedupAux seen ps = ps := by
  induction ps generalizing seen with
  | nil => rfl
  | cons q rest ih =>
    unfold dedupAux
    rw [if_pos (h1 q (List.mem_cons_self _ _))]
    congr 1
    apply ih
    · intro p hp
      have hpp := h1 p (List.mem_cons_of_mem _ hp)
      refine ⟨hpp.1, fun hmem => ?_⟩
      rcases List.mem_cons.mp hmem with heq | hmem2
      · exact (List.pairwise_cons.mp h2).1 p hp heq.symm
      · exact hpp.2 hmem2
    · exact (List.pairwise_cons.mp h2).2

/-- When the sought asin is already seen, the dedup loop output has no
record carrying it. -/
lemma filter_dedupAux_seen {seen : List String} (ps : List Product) {a : String}
    (ha : a ∈ seen) :
    (dedupAux seen ps).filter (fun p => p.asin == a) = [] := by
  rw [List.filter_eq_nil_iff]
  intro p hp
  simp only [beq_iff_eq]
  intro heq
  exact (mem_dedupAux hp).2 (heq.symm ▸ ha)

/-- For a non-empty, not-yet-seen asin, the dedup loop keeps exactly the
first input record carrying it. -/
lemma filter_dedupAux_take {seen : List String} (ps : List Product) {a : String}
    (hne : a ≠ "") (hnotin : a ∉ seen) :
    (dedupAux seen ps).filter (fun p => p.asin == a) =
      (ps.filter (fun p => p.asin == a)).take 1 := by
  induction ps generalizing seen with
  | nil => rfl
  | cons q rest ih =>
    unfold dedupAux
    by_cases hqa : q.asin = a
    · have hkeep : q.asin ≠ "" ∧ q.asin ∉ seen := ⟨hqa.symm ▸ hne, hqa.symm ▸ hnotin⟩
      have hq : (q.asin == a) = true := beq_iff_eq.mpr hqa
      rw [if_pos hkeep, List.filter_cons, if_pos hq, List.filter_cons, if_pos hq,
        List.take_succ_cons, List.take_zero]
      congr 1
      exact filter_dedupAux_seen rest (by rw [← hqa]; exact List.mem_cons_self _ _)
    · have hq : (q.asin == a) = false := by
        simp only [beq_eq_false_iff_ne, ne_eq]
        exact hqa
      by_cases hkeep : q.asin ≠ "" ∧ q.asin ∉ seen
      · rw [if_pos hkeep, List.filter_cons, if_neg (by simp [hq]), List.filter_cons,
          if_neg (by simp [hq])]
        exact ih (fun hmem => by
          rcases List.mem_cons.mp hmem with heq | hmem2
          · exact hqa heq.symm
          · exact hnotin hmem2)
      · rw [if_neg hkeep, List.filter_cons, if_neg (by simp [hq])]
        exact ih hnotin

/-- Claim C3: the deduplication step of `scrape_amazon` is idempotent and
never lengthens the list. -/
theorem dedup_idempotent_and_shrinking (ps : List Product) :
    dedup (dedup ps) = dedup ps ∧ (dedup ps).length ≤ ps.length := by
  constructor
  · apply dedupAux_fixed
    · intro p hp
      exact ⟨(mem_dedupAux hp).1, by simp⟩
    · exact dedupAux_pairwise [] ps
  · exact (dedupAux_sublist [] ps).length_le

/-- Claim C4: the deduplicated output has pairwise-distinct identifiers,
contains no record with an empty identifier, keeps exactly the first input
occurrence of each non-empty identifier, and is a sublist of the input
(so kept records stay in their original relative order). -/
theorem dedup_unique_first_occurrence (ps : List Product) :
    (dedup ps).Pairwise (fun a b => a.asin ≠ b.asin) ∧
    (∀ p ∈ dedup ps, p.asin ≠ "") ∧
    (∀ a : String, a ≠ "" →
      (dedup ps).filter (fun p => p.asin == a) =
        (ps.filter (fun p => p.asin == a)).take 1) ∧
    List.Sublist (dedup ps) ps := by
  refine ⟨dedupAux_pairwise [] ps, ?_, ?_, dedupAux_sublist [] ps⟩
  · intro p hp
    exact (mem_dedupAux hp).1
  · intro a ha
    exact filter_dedupAux_take ps ha (by simp)

/-- A sample fully-populated record. -/
def prodA : Product :=
  { asin := "B000ABC", title := "Widget", link := "https://www.amazon.in/dp/B000ABC",
    image := some "https://img/1.jpg", price := "19.99", rating := "4.5 out of 5 stars",
    reviews := "1,234" }

/-- A later record sharing `prodA`'s identifier but with different content. -/
def prodB : Product :=
  { prodA with title := "Widget (2nd listing)" }

/-- A record with an empty identifier. -/
def prodC : Product :=
  { prodA with asin := "" }

/-- Witness for claim C4 at a concrete input: the first occurrence of
`"B000ABC"` is the one kept. -/
theorem dedup_unique_first_occurrence_witness :
    (dedup [prodA, prodC, prodB]).filter (fun p => p.asin == "B000ABC") =
      (([prodA, prodC, prodB]).filter (fun p => p.asin == "B000ABC")).take 1 :=
  (dedup_unique_first_occurrence [prodA, prodC, prodB]).2.2.1 "B000ABC" (by decide)

/-- Claim C5: the parser emits no record for an element that is not a
selected result card or whose stripped identifier is empty, emits exactly
one record per qualifying card in document order, and its output is no
longer than the number of cards carrying a non-empty identifier. -/
theorem parse_one_record_per_qualifying_card (elems : List Element) (base : String) :
    parse_search_results elems base = (elems.filter qualifies).map (parseCard base) ∧
    (parse_search_results elems base).length ≤
      (elems.filter (fun e => cardAsin e != "")).length := by
  refine ⟨parse_eq_map elems base, ?_⟩
  rw [parse_eq_map, List.length_map]
  refine length_filter_mono elems _ _ ?_
  intro e he
  simp only [qualifies, Bool.and_eq_true] at he
  exact he.2

/-- Claim C1: for each record of the parser, the price is the whole part's
stripped text, extended by a literal "." and the fractional part's stripped
text exactly when a fractional element exists; with no whole element the
price falls back to the offscreen span's stripped text, and is empty when
neither exists. -/
theorem price_composition (elems : List Element) (base : String) (p : Product)
    (hp : p ∈ parse_search_results elems base) :
    ∃ e, e ∈ elems ∧ qualifies e = true ∧ p = parseCard base e ∧
      (∀ w f, e.priceWhole = some w → e.priceFrac = some f →
        p.price = pyStrip w ++ "." ++ pyStrip f) ∧
      (∀ w, e.priceWhole = some w → e.priceFrac = none → p.price = pyStrip w) ∧
      (∀ s, e.priceWhole = none → e.offscreen = some s → p.price = pyStrip s) ∧
      (e.priceWhole = none → e.offscreen = none → p.price = "") := by
  obtain ⟨e, he, hq, hpe⟩ := mem_parse.mp hp
  subst hpe
  refine ⟨e, he, hq, rfl, ?_, ?_, ?_, ?_⟩
  · intro w f hw hf
    simp [parseCard, hw, hf, String.append_assoc]
  · intro w hw hf
    simp [parseCard, hw, hf]
  · intro s hw hs
    simp [parseCard, hw, hs]
  · intro hw hs
    simp [parseCard, hw, hs]

/-- A concrete result card with composite price whole `"19"` and
fraction `"99"`. -/
def cardWF : Element :=
  { tag := "div", dataAsin := some "B000123", componentType := some "s-search-result",
    primaryAnchor := none, anyAnchor := none, sImage := none,
    priceWhole := some "19", priceFrac := some "99", offscreen := none,
    ratingAlt := none, sizeBase := none }

/-- Witness for claim C1: whole `"19"` with fraction `"99"` yields the
price `"19.99"`. -/
theorem price_composition_witness :
    (parseCard "https://www.amazon.in" cardWF).price = "19.99" := by
  obtain ⟨e, he, hq, hpe, h1, h2, h3, h4⟩ :=
    price_composition [cardWF] "https://www.amazon.in"
      (parseCard "https://www.amazon.in" cardWF) (by decide)
  rcases List.mem_singleton.mp he with rfl
  have hval := h1 "19" "99" rfl rfl
  rw [← hpe] at hval
  rw [hval]
  decide

/-- A concrete result card whose `img.s-image` element has no `src`
attribute. -/
def cardNoSrc : Element :=
  { tag := "div", dataAsin := some "B000456", componentType := some "s-search-result",
    primaryAnchor := none, anyAnchor := none, sImage := some { src := none },
    priceWhole := none, priceFrac := none, offscreen := none,
    ratingAlt := none, sizeBase := none }

/-- Counterexample to claim C2 as stated: on a qualifying card whose image
element lacks a `src` attribute, the emitted record's image field is the
missing marker `none` rather than a string, because the source computes
`img.get("src") if img else ""` and `img.get("src")` is `None`. -/
theorem record_image_none_counterexample :
    (parse_search_results [cardNoSrc] "https://www.amazon.in").map Product.image =
      [none] := by decide

/-- Claim C2 (amended): every field whose sub-element is absent from the
card is the empty string; all fields except `image` are strings by
construction, and `image` is the missing marker exactly when the card has
an `img.s-image` element lacking a `src` attribute. -/
theorem absent_subelements_empty_string (elems : List Element) (base : String)
    (p : Product) (hp : p ∈ parse_search_results elems base) :
    ∃ e, e ∈ elems ∧ p = parseCard base e ∧
      (titleTag e = none → p.title = "" ∧ p.link = "") ∧
      (e.sImage = none → p.image = some "") ∧
      (e.priceWhole = none → e.offscreen = none → p.price = "") ∧
      (e.ratingAlt = none → p.rating = "") ∧
      (e.sizeBase = none → p.reviews = "") ∧
      (p.image = none ↔ ∃ i, e.sImage = some i ∧ i.src = none) := by
  obtain ⟨e, he, hq, hpe⟩ := mem_parse.mp hp
  subst hpe
  refine ⟨e, he, rfl, ?_, ?_, ?_, ?_, ?_, ?_⟩
  · intro ht
    constructor <;> simp [parseCard, ht]
  · intro hi
    simp [parseCard, hi]
  · intro h1 h2
    simp [parseCard, h1, h2]
  · intro h
    simp [parseCard, h]
  · intro h
    simp [parseCard, h]
  · constructor
    · intro hi
      cases hsi : e.sImage with
      | none => simp [parseCard, hsi] at hi
      | some i =>
        refine ⟨i, rfl, ?_⟩
        simpa [parseCard, hsi] using hi
    · rintro ⟨i, hsi, hsrc⟩
      simp [parseCard, hsi, hsrc]

/-- A concrete qualifying card with none of the optional sub-elements. -/
def cardBare : Element :=
  { tag := "div", dataAsin := some "B000789", componentType := some "s-search-result",
    primaryAnchor := none, anyAnchor := none, sImage := none,
    priceWhole := none, priceFrac := none, offscreen := none,
    ratingAlt := none, sizeBase := none }

/-- Witness for the amended claim C2 at a concrete input: the rating of a
card with no rating element is the empty string. -/
theorem absent_subelements_empty_string_witness :
    (parseCard "https://www.amazon.in" cardBare).rating = "" := by
  obtain ⟨e, he, hpe, h1, h2, h3, h4, h5, h6⟩ :=
    absent_subelements_empty_string [cardBare] "https://www.amazon.in"
      (parseCard "https://www.amazon.in" cardBare) (by decide)
  rcases List.mem_singleton.mp he with rfl
  rw [hpe]
  rw [hpe] at h4
  exact h4 rfl

/-- Claim C6: the parser is deterministic: two calls on the same
`(html, base_domain)` pair yield identical output.  The embedding is a
pure total function of its two arguments, mirroring the source function,
which reads only its parameters and local variables and touches no shared
state. -/
theorem parse_deterministic (elemsFst elemsSnd : List Element)
    (baseFst baseSnd : String)
    (hElems : elemsFst = elemsSnd) (hBase : baseFst = baseSnd) :
    parse_search_results elemsFst baseFst = parse_search_results elemsSnd baseSnd := by
  rw [hElems, hBase]

/-- Witness for claim C6: a repeated call on a concrete input gives the
same output. -/
theorem parse_deterministic_witness :
    parse_search_results [cardWF] "https://www.amazon.in" =
      parse_search_results [cardWF] "https://www.amazon.in" :=
  parse_deterministic [cardWF] [cardWF] "https://www.amazon.in" "https://www.amazon.in"
    rfl rfl

/-- A concrete result card whose title anchor has the relative href
`"/dp/B000123"`. -/
def cardHref : Element :=
  { tag := "div", dataAsin := some "B000123", componentType := some "s-search-result",
    primaryAnchor := some { text := "Widget", href := some "/dp/B000123" },
    anyAnchor := none, sImage := none, priceWhole := none, priceFrac := none,
    offscreen := none, ratingAlt := none, sizeBase := none }

/-- Claim C7: for each record, a non-empty href on the matched title anchor
is resolved against the base domain by `urljoin`, an anchor without href
(or no anchor) gives the empty link, and concretely the base
`"https://www.amazon.in"` with href `"/dp/B000123"` resolves to
`"https://www.amazon.in/dp/B000123"`. -/
theorem link_resolution (elems : List Element) (base : String) (p : Product)
    (hp : p ∈ parse_search_results elems base) :
    (∃ e, e ∈ elems ∧ qualifies e = true ∧ p = parseCard base e ∧
      (∀ a h, titleTag e = some a → a.href = some h → h ≠ "" →
        p.link = urljoin base h) ∧
      (∀ a, titleTag e = some a → a.href = none → p.link = "") ∧
      (titleTag e = none → p.link = "")) ∧
    urljoin "https://www.amazon.in" "/dp/B000123" =
      "https://www.amazon.in/dp/B000123" := by
  refine ⟨?_, by decide⟩
  obtain ⟨e, he, hq, hpe⟩ := mem_parse.mp hp
  subst hpe
  refine ⟨e, he, hq, rfl, ?_, ?_, ?_⟩
  · intro a h hta hh hne
    simp [parseCard, hta, hh, hne]
  · intro a hta hh
    simp [parseCard, hta, hh]
  · intro hta
    simp [parseCard, hta]

/-- Witness for claim C7 at the spec's concrete input. -/
theorem link_resolution_witness :
    (parseCard "https://www.amazon.in" cardHref).link =
      "https://www.amazon.in/dp/B000123" := by
  obtain ⟨⟨e, he, hq, hpe, h1, h2, h3⟩, hcat⟩ :=
    link_resolution [cardHref] "https://www.amazon.in"
      (parseCard "https://www.amazon.in" cardHref) (by decide)
  rcases List.mem_singleton.mp he with rfl
  have hval := h1 { text := "Widget", href := some "/dp/B000123" } "/dp/B000123"
    rfl rfl (by decide)
  rw [← hpe] at hval
  rw [hval]
  exact hcat

/-- The page loop never emits a release event: the release belongs to the
`finally` block alone. -/
lemma release_not_in_renderLoop {ε : Type} (render : Nat → Except ε (List Element))
    (base : String) (n : Nat) :
    ∀ (page : Nat) (acc : List Product),
      Ev.release ∉ (renderLoop render base n page acc).1 := by
  induction n with
  | zero =>
    intro page acc
    simp [renderLoop]
  | succ n ih =>
    intro page acc
    cases h : render page with
    | error err =>
      simp [renderLoop, h]
    | ok html =>
      simp only [renderLoop, h]
      intro hmem
      rcases List.mem_cons.mp hmem with heq | hmem2
      · exact Ev.noConfusion heq
      · exact ih _ _ hmem2

/-- The last element of a list extended by one element is that element. -/
lemma getLast?_append_singleton {α : Type} (l : List α) (a : α) :
    (l ++ [a]).getLast? = some a := by
  induction l with
  | nil => rfl
  | cons b t ih =>
    cases t with
    | nil => rfl
    | cons c u =>
      rw [List.cons_append, List.cons_append, List.getLast?_cons_cons]
      rw [List.cons_append] at ih
      exact ih

/-- Claim C9: once acquired, the browser session is released exactly once on
every exit path of `scrape_amazon` — the trace always starts with the
acquisition, ends with the single release — and an error raised by the page
loop still propagates as the overall result. -/
theorem session_released_exactly_once {ε : Type}
    (render : Nat → Except ε (List Element)) (base : String) (pages : Nat) :
    (scrape_amazon render base pages).1.count Ev.release = 1 ∧
    (scrape_amazon render base pages).1.head? = some Ev.acquire ∧
    (scrape_amazon render base pages).1.getLast? = some Ev.release ∧
    (∀ err, (renderLoop render base pages 1 []).2 = Except.error err →
      (scrape_amazon render base pages).2 = Except.error err) := by
  refine ⟨?_, rfl, ?_, ?_⟩
  · have h0 : (renderLoop render base pages 1 []).1.count Ev.release = 0 :=
      List.count_eq_zero.mpr (release_not_in_renderLoop render base pages 1 [])
    simp [scrape_amazon, List.count_cons, List.count_append, h0]
  · show ((Ev.acquire :: (renderLoop render base pages 1 []).1) ++
      [Ev.release]).getLast? = some Ev.release
    exact getLast?_append_singleton _ _
  · intro err h
    simp [scrape_amazon, h]

/-- A render function that raises on every page. -/
def renderBoom : Nat → Except String (List Element) :=
  fun _ => Except.error "boom"

/-- Witness for claim C9: with a rendering failure on page 1, the error
propagates as the overall result (and the theorem's trace facts hold). -/
theorem session_released_exactly_once_witness :
    (scrape_amazon renderBoom "https://www.amazon.in" 1).2 =
      Except.error "boom" :=
  (session_released_exactly_once renderBoom "https://www.amazon.in" 1).2.2.2 "boom" rfl

/-- Claim C8: saving a single record with all seven fields populated writes
to the destination exactly the two-line file of the fixed header followed by
that record's row, overwriting whatever the file system held at that path,
and touching no other path. -/
theorem export_single_record (fs : String → Option (List String)) (path : String)
    (p : Product)
    (_hpop : p.asin ≠ "" ∧ p.title ≠ "" ∧ p.link ≠ "" ∧
      (∃ s, p.image = some s ∧ s ≠ "") ∧
      p.price ≠ "" ∧ p.rating ≠ "" ∧ p.reviews ≠ "") :
    writeCsvFile fs path [p] path =
      some ["asin,title,link,image,price,rating,reviews", csvRow p] ∧
    (save_to_csv [p]).length = 2 ∧
    (∀ q, q ≠ path → writeCsvFile fs path [p] q = fs q) := by
  refine ⟨?_, rfl, ?_⟩
  · simp [writeCsvFile, save_to_csv, csvHeader]
  · intro q hq
    simp [writeCsvFile, hq]

/-- Witness for claim C8: exporting the fully-populated sample record over
a file system that already holds a file at the destination. -/
theorem export_single_record_witness :
    writeCsvFile (fun _ => some ["stale"]) "amazon_results.csv" [prodA]
        "amazon_results.csv" =
      some ["asin,title,link,image,price,rating,reviews", csvRow prodA] :=
  (export_single_record (fun _ => some ["stale"]) "amazon_results.csv" prodA
    ⟨by decide, by decide, by decide, ⟨"https://img/1.jpg", rfl, by decide⟩,
      by decide, by decide, by decide⟩).1

/-- Claim C10: exporting an empty record list writes a file that contains no
seven-column header line; the header appears in the export exactly when at
least one record is present, because the columns are derived from the
records themselves. -/
theorem empty_export_has_no_header (items : List Product) :
    save_to_csv [] = [""] ∧
    csvHeader ∉ save_to_csv [] ∧
    (csvHeader ∈ save_to_csv items ↔ items ≠ []) := by
  refine ⟨rfl, ?_, ?_⟩
  · intro h
    exact absurd (List.mem_singleton.mp h) (by decide)
  · cases items with
    | nil =>
      constructor
      · intro h
        exact absurd (List.mem_singleton.mp h) (by decide)
      · intro h
        exact absurd rfl h
    | cons p rest =>
      constructor
      · intro _
        exact List.cons_ne_nil _ _
      · intro _
        exact List.mem_cons_self _ _

end AmazonScraper
